import Mathlib

/-!
Verification of the lighting-match-engine-core matching kernel.

The definitions below are a shallow embedding of the Rust sources:
message_codec.rs (wire codec), call_auction_pool.rs (call-auction
equilibrium price and execution), and continuous_order_book.rs (the
continuous book and its match loop).  Machine integers are modelled as
Nat; Rust u8/u16/u32/u64 values are bytes and numbers with explicit
truncation where the source casts.  Rust panics (indexing out of
bounds, copy_from_slice length mismatch, the explicit zero-id panic in
serialize_cancel_order_chunk) are modelled by Option/Except returns or
by loop exit, as noted at each definition.  The external monotonic
clock is passed in as a parameter.
-/

namespace MatchEngine

/-- Message-type and side constants from data_types.rs. -/
def MSG_ORDER_SUBMIT : Nat := 1

def MSG_ORDER_CANCEL : Nat := 2

def MSG_TRADE_BROADCAST : Nat := 10

def MSG_STATUS_BROADCAST : Nat := 11

def ORDER_TYPE_BUY : Nat := 1

def ORDER_TYPE_SELL : Nat := 2

def ORDER_TYPE_MOCK_BUY : Nat := 3

def ORDER_TYPE_MOCK_SELL : Nat := 4

def ORDER_PRICE_TYPE_LIMIT : Nat := 1

def ORDER_PRICE_TYPE_MARKET : Nat := 2

/-- data_types.rs line 29: all network packets are 64 bytes fixed size. -/
def MESSAGE_TOTAL_SIZE : Nat := 64

/-- Order from data_types.rs.  Field values are the numeric contents of the
Rust u16/u64/u32/u8 fields. -/
structure Order where
  product_id : Nat
  order_id : Nat
  price : Nat
  quantity : Nat
  order_type : Nat
  price_type : Nat
  submit_time : Nat
  expire_time : Nat
  is_mocked_order : Bool
deriving DecidableEq, Repr

/-- CancelOrder as used by message_codec.rs (product id plus a list of
order ids serialized in chunks of five). -/
structure CancelOrder where
  product_id : Nat
  order_ids : List Nat
deriving DecidableEq, Repr

/-- OrderExecution from data_types.rs (the struct the match loop builds). -/
structure OrderExecution where
  instance_tag : List Nat
  product_id : Nat
  buy_order_id : Nat
  sell_order_id : Nat
  price : Nat
  quantity : Nat
  trade_time_network : Nat
  internal_match_time : Nat
  is_mocked_result : Bool
deriving DecidableEq, Repr

/-- MatchResult as used by continuous_order_book.rs and call_auction_pool.rs. -/
structure MatchResult where
  order_execution_list : List OrderExecution
  start_time : Nat
  end_time : Nat
deriving DecidableEq, Repr

/-- Insert into a sorted list, after every element that must come first:
the building block of the stable sort below. -/
def insertSorted (le : α → α → Bool) (x : α) : List α → List α
  | [] => [x]
  | y :: ys => if le x y then x :: y :: ys else y :: insertSorted le x ys

/-- Stable insertion sort by a boolean comparator.  This models the Rust
sort_by / sort_unstable_by calls of the sources: like sort_by it is stable
(elements the comparator ties keep their original order), and the
sort_unstable_by call sites sort plain numbers, where stability is
irrelevant. -/
def sortBy (le : α → α → Bool) (l : List α) : List α :=
  l.foldr (insertSorted le) []

/-- Big-endian byte encoding of a value into a fixed width (to_be_bytes). -/
def toBeBytes : Nat → Nat → List Nat
  | 0, _ => []
  | w + 1, v => toBeBytes w (v / 256) ++ [v % 256]

/-- Big-endian byte decoding (from_be_bytes). -/
def fromBeBytes (l : List Nat) : Nat :=
  l.foldl (fun acc b => acc * 256 + b) 0

/-- XOR checksum over bytes 1.. of the buffer (calculate_checksum). -/
def calculate_checksum (buf : List Nat) : Nat :=
  (buf.drop 1).foldl Nat.xor 0

/-- serialize_order from message_codec.rs: checksum byte, type byte 1, then
product_id(2) order_id(8) price(8) quantity(4) order_type(1) price_type(1)
submit_time(8) expire_time(8), zero-padded to 64 bytes. -/
def serialize_order (o : Order) : List Nat :=
  let body : List Nat :=
    [MSG_ORDER_SUBMIT] ++ toBeBytes 2 o.product_id ++ toBeBytes 8 o.order_id ++
      toBeBytes 8 o.price ++ toBeBytes 4 o.quantity ++ [o.order_type] ++ [o.price_type] ++
      toBeBytes 8 o.submit_time ++ toBeBytes 8 o.expire_time ++ List.replicate 22 0
  calculate_checksum (0 :: body) :: body

/-- The value written into slot k of a cancel chunk: the next order id while
ids remain in [start_index, min (start_index+5) len), else the 0 filler. -/
def cancelChunkSlot (c : CancelOrder) (start_index k : Nat) : Nat :=
  if start_index + k < min (start_index + 5) c.order_ids.length then
    c.order_ids.getD (start_index + k) 0
  else 0

/-- serialize_cancel_order_chunk from message_codec.rs.  Bytes 0 and 1
(checksum and message type) are left at zero: the source has those two
assignments commented out.  The source panics when a serialized id is 0;
that panic is modelled by returning none. -/
def serialize_cancel_order_chunk (c : CancelOrder) (start_index : Nat) :
    Option (List Nat) :=
  if (List.range 5).any (fun k =>
      decide (start_index + k < min (start_index + 5) c.order_ids.length) &&
      (c.order_ids.getD (start_index + k) 0 == 0)) then
    none
  else
    some ([0, 0] ++ toBeBytes 2 c.product_id ++
      (List.range 5).flatMap (fun k => toBeBytes 8 (cancelChunkSlot c start_index k)) ++
      List.replicate 20 0)

/-- Trade fields consumed by serialize_match_result (the function reads an
instance tag it copies into an 8-byte slice, then the trade scalars). -/
structure Trade where
  instance_tag : List Nat
  product_id : Nat
  buy_order_id : Nat
  sell_order_id : Nat
  price : Nat
  quantity : Nat
  trade_time_network : Nat
  internal_match_time : Nat
deriving DecidableEq, Repr

/-- serialize_match_result from message_codec.rs.  The source copies the
instance tag into an 8-byte slice with copy_from_slice, which panics unless
the tag is exactly 8 bytes; the panic is modelled by returning none. -/
def serialize_match_result (t : Trade) : Option (List Nat) :=
  if t.instance_tag.length ≠ 8 then none
  else
    let body : List Nat :=
      [MSG_TRADE_BROADCAST] ++ t.instance_tag ++ toBeBytes 2 t.product_id ++
        toBeBytes 8 t.buy_order_id ++ toBeBytes 8 t.sell_order_id ++
        toBeBytes 8 t.price ++ toBeBytes 4 t.quantity ++
        toBeBytes 4 t.trade_time_network ++ toBeBytes 4 t.internal_match_time ++
        List.replicate 16 0
    some (calculate_checksum (0 :: body) :: body)

/-- BroadcastStats fields consumed by serialize_stats_result. -/
structure BroadcastStats where
  instance_tag : List Nat
  product_id : Nat
  bids_size : Nat
  ask_size : Nat
  matched_orders : Nat
  total_received_orders : Nat
  start_time : Nat
deriving DecidableEq, Repr

/-- serialize_stats_result from message_codec.rs; 8-byte tag slice as above. -/
def serialize_stats_result (s : BroadcastStats) : Option (List Nat) :=
  if s.instance_tag.length ≠ 8 then none
  else
    let body : List Nat :=
      [MSG_STATUS_BROADCAST] ++ s.instance_tag ++ toBeBytes 2 s.product_id ++
        toBeBytes 4 s.bids_size ++ toBeBytes 4 s.ask_size ++
        toBeBytes 4 s.matched_orders ++ toBeBytes 4 s.total_received_orders ++
        toBeBytes 8 s.start_time ++ List.replicate 28 0
    some (calculate_checksum (0 :: body) :: body)

/-- unpack_message_payload from message_codec.rs: length check, checksum
check against the XOR of bytes 1.., then (type byte, payload bytes 2..). -/
def unpack_message_payload (buf : List Nat) :
    Except String (Nat × List Nat) :=
  if buf.length ≠ MESSAGE_TOTAL_SIZE then .error "Buffer size mismatch"
  else if buf.getD 0 0 ≠ calculate_checksum buf then .error "Checksum failed"
  else .ok (buf.getD 1 0, buf.drop 2)

/-- deserialize_order from message_codec.rs: reads the 40-byte payload at
offsets 0,2,10,18,22,23,24,32.  The source constructs the Order without
any mock flag (the wire format carries none); it is false here. -/
def deserialize_order (payload : List Nat) : Except String Order :=
  if payload.length < 40 then .error "Order payload too short"
  else
    .ok { product_id := fromBeBytes ((payload.drop 0).take 2)
          order_id := fromBeBytes ((payload.drop 2).take 8)
          price := fromBeBytes ((payload.drop 10).take 8)
          quantity := fromBeBytes ((payload.drop 18).take 4)
          order_type := payload.getD 22 0
          price_type := payload.getD 23 0
          submit_time := fromBeBytes ((payload.drop 24).take 8)
          expire_time := fromBeBytes ((payload.drop 32).take 8)
          is_mocked_order := false }

/-- deserialize_cancel_order from message_codec.rs.  The source takes the
whole frame and starts reading at offset PAYLOAD_START + size_of(u8) = 3
(its comments claim offset 2): product id from bytes 3..5, then five 8-byte
id slots from offset 5, discarding zero ids.  Its bounds checks compare
fixed offsets against MESSAGE_TOTAL_SIZE and can never fire for the fixed
layout; missing bytes read as 0 (callers pass 64-byte frames). -/
def deserialize_cancel_order (buf : List Nat) : Except String CancelOrder :=
  let product_id := fromBeBytes ((buf.drop 3).take 2)
  let order_ids :=
    ((List.range 5).map (fun k => fromBeBytes ((buf.drop (5 + 8 * k)).take 8))).filter
      (fun i => i ≠ 0)
  .ok { product_id := product_id, order_ids := order_ids }

/-- CallAuctionPool from data_types/call_auction_pool.rs: two unordered
collections of orders. -/
structure CallAuctionPool where
  bids : List Order
  asks : List Order
deriving DecidableEq, Repr

/-- add_order from call_auction_pool.rs. -/
def CallAuctionPool.add_order (p : CallAuctionPool) (o : Order) : CallAuctionPool :=
  if o.order_type = ORDER_TYPE_BUY ∨ o.order_type = ORDER_TYPE_MOCK_BUY then
    { p with bids := p.bids ++ [o] }
  else if o.order_type = ORDER_TYPE_SELL ∨ o.order_type = ORDER_TYPE_MOCK_SELL then
    { p with asks := p.asks ++ [o] }
  else p

/-- Removes consecutive duplicates (Vec dedup after sort_unstable). -/
def dedupAdj : List Nat → List Nat
  | [] => []
  | [a] => [a]
  | a :: b :: rest => if a = b then dedupAdj (b :: rest) else a :: dedupAdj (b :: rest)

/-- The candidate tick prices pushed for one raw order price p:
base = (p / tick) * tick, base + tick, and base - tick when base ≥ tick. -/
def criticalTicksFor (tick p : Nat) : List Nat :=
  let base := p / tick * tick
  [base, base + tick] ++ (if tick ≤ base then [base - tick] else [])

/-- One candidate-price step of the sweep in calculate_match_price_final.
The source keeps sorted_bids in descending price order and walks bid_ptr
down from the end removing bids priced below the candidate; the live bids
are modelled here as the reversed (ascending) remainder so that walk is a
takeWhile/dropWhile at the head.  The ask walk is the forward ask_idx walk.
State: (live bids ascending, asks not yet entered, bid volume, ask volume,
best price, max volume, min imbalance). -/
def sweepStep (st : List Order × List Order × Nat × Nat × Nat × Nat × Nat)
    (test_price : Nat) : List Order × List Order × Nat × Nat × Nat × Nat × Nat :=
  let (bidsRem, asksRem, bidVol, askVol, best, maxVol, minImb) := st
  let droppedBids := bidsRem.takeWhile (fun o => decide (o.price < test_price))
  let bidsRem := bidsRem.dropWhile (fun o => decide (o.price < test_price))
  let bidVol := bidVol - (droppedBids.map (fun o => o.quantity)).sum
  let enteredAsks := asksRem.takeWhile (fun o => decide (o.price ≤ test_price))
  let asksRem := asksRem.dropWhile (fun o => decide (o.price ≤ test_price))
  let askVol := askVol + (enteredAsks.map (fun o => o.quantity)).sum
  let currentVol := min bidVol askVol
  let imbalance := max bidVol askVol - min bidVol askVol
  if maxVol < currentVol then
    (bidsRem, asksRem, bidVol, askVol, test_price, currentVol, imbalance)
  else if currentVol = maxVol ∧ 0 < maxVol ∧ imbalance < minImb then
    (bidsRem, asksRem, bidVol, askVol, test_price, maxVol, imbalance)
  else
    (bidsRem, asksRem, bidVol, askVol, best, maxVol, minImb)

/-- calculate_match_price_final from call_auction_pool.rs: candidate tick
set from all distinct order prices, then a two-pointer sweep selecting the
price with maximal executable volume, ties broken by minimal absolute
imbalance, further ties keeping the first (lowest) candidate.  The initial
min imbalance is the u32::MAX sentinel of the source. -/
def CallAuctionPool.calculate_match_price_final (p : CallAuctionPool)
    (price_tick : Nat) : Option (Nat × Nat) :=
  if p.bids.isEmpty ∨ p.asks.isEmpty ∨ price_tick = 0 then none
  else
    let raw_prices := dedupAdj (sortBy (fun a b => decide (a ≤ b))
      (p.bids.map (fun o => o.price) ++ p.asks.map (fun o => o.price)))
    let critical_ticks := dedupAdj (sortBy (fun a b => decide (a ≤ b))
      (raw_prices.flatMap (criticalTicksFor price_tick)))
    let sorted_bids := sortBy (fun a b : Order => decide (b.price ≤ a.price)) p.bids
    let sorted_asks := sortBy (fun a b : Order => decide (a.price ≤ b.price)) p.asks
    let init : List Order × List Order × Nat × Nat × Nat × Nat × Nat :=
      (sorted_bids.reverse, sorted_asks,
        (sorted_bids.map (fun o => o.quantity)).sum, 0, 0, 0, 4294967295)
    let final := critical_ticks.foldl sweepStep init
    let best_price := final.2.2.2.2.1
    let max_volume := final.2.2.2.2.2.1
    if 0 < max_volume then some (best_price, max_volume) else none

/-- The bilateral two-cursor matching walk of execute_auction.  Cursors are
modelled by consuming the eligible lists from the head; an order is dropped
from its list exactly when its remaining quantity reaches 0, matching the
cursor advance of the source.  The source while-loop terminates because
bids.length + asks.length + vol strictly decreases each iteration; the
first argument is that variant, passed as the iteration bound by
execute_auction, so the fuel-exhausted first arm is never reached. -/
def auctionWalk (instance_tag : List Nat) (product_id match_price : Nat) :
    Nat → List Order → List Order → Nat →
      List OrderExecution × List Order × List Order
  | 0, bids, asks, _ => ([], bids, asks)
  | _ + 1, bids, asks, 0 => ([], bids, asks)
  | _ + 1, [], asks, _ => ([], [], asks)
  | _ + 1, bids, [], _ => ([], bids, [])
  | fuel + 1, bid :: bids, ask :: asks, vol + 1 =>
    let match_qty := min bid.quantity (min ask.quantity (vol + 1))
    let execs :=
      if 0 < match_qty then
        [{ instance_tag := instance_tag, product_id := product_id,
           buy_order_id := bid.order_id, sell_order_id := ask.order_id,
           price := match_price, quantity := match_qty,
           trade_time_network := 0, internal_match_time := 0,
           is_mocked_result := bid.is_mocked_order || ask.is_mocked_order }]
      else []
    let bid := { bid with quantity := bid.quantity - match_qty }
    let ask := { ask with quantity := ask.quantity - match_qty }
    let bids := if bid.quantity = 0 then bids else bid :: bids
    let asks := if ask.quantity = 0 then asks else ask :: asks
    let (rest, rb, ra) :=
      auctionWalk instance_tag product_id match_price fuel bids asks (vol + 1 - match_qty)
    (execs ++ rest, rb, ra)

/-- execute_auction from call_auction_pool.rs.  Both sides are drained;
only orders passing the eligibility filter enter the walk, and afterwards
only walked-side orders with positive remaining quantity are put back. -/
def CallAuctionPool.execute_auction (p : CallAuctionPool) (price_tick : Nat)
    (instance_tag : List Nat) (product_id : Nat) (current_ts : Nat) :
    CallAuctionPool × MatchResult :=
  match p.calculate_match_price_final price_tick with
  | none => (p, { order_execution_list := [], start_time := current_ts,
                  end_time := current_ts })
  | some (match_price, total_volume_to_match) =>
    let eligible_bids := sortBy
      (fun a b : Order => decide (b.price < a.price) ||
        (a.price == b.price && decide (a.submit_time ≤ b.submit_time)))
      (p.bids.filter (fun o => decide (match_price ≤ o.price)))
    let eligible_asks := sortBy
      (fun a b : Order => decide (a.price < b.price) ||
        (a.price == b.price && decide (a.submit_time ≤ b.submit_time)))
      (p.asks.filter (fun o => decide (o.price ≤ match_price)))
    let (execs, restBids, restAsks) :=
      auctionWalk instance_tag product_id match_price
        (eligible_bids.length + eligible_asks.length + total_volume_to_match)
        eligible_bids eligible_asks total_volume_to_match
    ({ bids := restBids.filter (fun o => decide (0 < o.quantity)),
       asks := restAsks.filter (fun o => decide (0 < o.quantity)) },
     { order_execution_list := execs, start_time := current_ts, end_time := 0 })

/-- CallAuctionPool.cancel_order from call_auction_pool.rs: remove the
first order with the given id from bids, else from asks; report removal.
The source takes the cancel request and uses its order_id field. -/
def CallAuctionPool.cancel_order_by_id (p : CallAuctionPool) (order_id : Nat) :
    CallAuctionPool × Bool :=
  match p.bids.findIdx? (fun o => o.order_id == order_id) with
  | some pos => ({ p with bids := p.bids.eraseIdx pos }, true)
  | none =>
    match p.asks.findIdx? (fun o => o.order_id == order_id) with
    | some pos => ({ p with asks := p.asks.eraseIdx pos }, true)
    | none => (p, false)

/-- MatchedRestingOrder from data_types.rs. -/
structure MatchedRestingOrder where
  order_index : Nat
  matched_quantity : Nat
  is_buy : Bool
deriving DecidableEq, Repr

/-- ContinuousOrderBook state from data_types.rs (the OrderBook struct the
continuous book implementation mutates). -/
structure ContinuousOrderBook where
  bids : List Order
  asks : List Order
  top_bids_index : List Nat
  top_asks_index : List Nat
  init_top_index_size : Nat
  bids_index_used : Nat
  asks_index_used : Nat
  total_ask_volumn : Nat
  total_bid_volumn : Nat
  matched_orders : List MatchedRestingOrder
  bids_to_remove : List Nat
  asks_to_remove : List Nat
  match_result : MatchResult
deriving DecidableEq, Repr

/-- ContinuousOrderBook.new with everything empty (capacities are not
observable). -/
def ContinuousOrderBook.new (initial_top_size : Nat) : ContinuousOrderBook :=
  { bids := [], asks := [], top_bids_index := [], top_asks_index := [],
    init_top_index_size := initial_top_size, bids_index_used := 0,
    asks_index_used := 0, total_ask_volumn := 0, total_bid_volumn := 0,
    matched_orders := [], bids_to_remove := [], asks_to_remove := [],
    match_result := { order_execution_list := [], start_time := 0, end_time := 0 } }

namespace ContinuousOrderBook

/-- fuel_order from continuous_order_book.rs: push on bids for BUY, on asks
for SELL, ignore every other order type. -/
def fuel_order (b : ContinuousOrderBook) (o : Order) : ContinuousOrderBook :=
  if o.order_type = ORDER_TYPE_BUY then { b with bids := b.bids ++ [o] }
  else if o.order_type = ORDER_TYPE_SELL then { b with asks := b.asks ++ [o] }
  else b

/-- need_to_rebuild_bids_index from continuous_order_book.rs. -/
def need_to_rebuild_bids_index (b : ContinuousOrderBook) : Bool :=
  (b.bids_index_used == 0 && b.top_bids_index.length == 0) ||
    decide (b.top_bids_index.length ≤ b.bids_index_used)

/-- need_to_rebuild_asks_index from continuous_order_book.rs. -/
def need_to_rebuild_asks_index (b : ContinuousOrderBook) : Bool :=
  (b.asks_index_used == 0 && b.top_asks_index.length == 0) ||
    decide (b.top_asks_index.length ≤ b.asks_index_used)

/-- prepare_bids_index: stable-sort bid positions by price descending then
submit time ascending, keep the first init_top_index_size, reset the cursor. -/
def prepare_bids_index (b : ContinuousOrderBook) : ContinuousOrderBook :=
  let indexed := b.bids.enum.map (fun p => (p.1, p.2.price, p.2.submit_time))
  let sorted := sortBy (fun x y : Nat × Nat × Nat =>
    decide (y.2.1 < x.2.1) || (x.2.1 == y.2.1 && decide (x.2.2 ≤ y.2.2))) indexed
  { b with top_bids_index := (sorted.map (fun p => p.1)).take b.init_top_index_size,
           bids_index_used := 0 }

/-- prepare_asks_index: stable-sort ask positions by price ascending then
submit time ascending, keep the first init_top_index_size, reset the cursor. -/
def prepare_asks_index (b : ContinuousOrderBook) : ContinuousOrderBook :=
  let indexed := b.asks.enum.map (fun p => (p.1, p.2.price, p.2.submit_time))
  let sorted := sortBy (fun x y : Nat × Nat × Nat =>
    decide (x.2.1 < y.2.1) || (x.2.1 == y.2.1 && decide (x.2.2 ≤ y.2.2))) indexed
  { b with top_asks_index := (sorted.map (fun p => p.1)).take b.init_top_index_size,
           asks_index_used := 0 }

/-- prepare_index calls both preparations. -/
def prepare_index (b : ContinuousOrderBook) : ContinuousOrderBook :=
  prepare_asks_index (prepare_bids_index b)

/-- update_stats: recompute both volume totals from the resting orders. -/
def update_stats (b : ContinuousOrderBook) : ContinuousOrderBook :=
  { b with total_ask_volumn := (b.asks.map (fun o => o.quantity)).sum,
           total_bid_volumn := (b.bids.map (fun o => o.quantity)).sum }

/-- update_stats_with_result from continuous_order_book.rs: add the
aggressor residual to its side total (sell residual to asks, everything
else to bids), then subtract the executed quantity of the current match
result from the opposite side total. -/
def update_stats_with_result (b : ContinuousOrderBook) (new_order : Order) :
    ContinuousOrderBook :=
  let is_sell_order := new_order.order_type = ORDER_TYPE_SELL
  let b :=
    if is_sell_order ∧ 0 < new_order.quantity then
      { b with total_ask_volumn := b.total_ask_volumn + new_order.quantity }
    else
      { b with total_bid_volumn := b.total_bid_volumn + new_order.quantity }
  if b.match_result.order_execution_list.isEmpty then b
  else
    let total_quantity :=
      (b.match_result.order_execution_list.map (fun e => e.quantity)).sum
    if is_sell_order then
      { b with total_bid_volumn := b.total_bid_volumn - total_quantity }
    else
      { b with total_ask_volumn := b.total_ask_volumn - total_quantity }

/-- swap_remove on a list: replace position i with the last element and
drop the last (callers guard i against the length). -/
def swapRemove (l : List Order) (i : Nat) : List Order :=
  match l.getLast? with
  | none => l
  | some x => (l.set i x).dropLast

/-- One matched resting order applied during post_match step 1: decrement a
partially filled order in place, or put a fully consumed position on its
side removal list.  The accumulator is (bids, asks, bids_to_remove,
asks_to_remove). -/
def applyMatched (acc : List Order × List Order × List Nat × List Nat)
    (m : MatchedRestingOrder) : List Order × List Order × List Nat × List Nat :=
  let (bids, asks, btr, atr) := acc
  if m.is_buy then
    match bids.get? m.order_index with
    | some o =>
      if o.quantity ≤ m.matched_quantity then (bids, asks, btr ++ [m.order_index], atr)
      else (bids.set m.order_index { o with quantity := o.quantity - m.matched_quantity },
        asks, btr, atr)
    | none => (bids, asks, btr, atr)
  else
    match asks.get? m.order_index with
    | some o =>
      if o.quantity ≤ m.matched_quantity then (bids, asks, btr, atr ++ [m.order_index])
      else (bids, asks.set m.order_index { o with quantity := o.quantity - m.matched_quantity },
        btr, atr)
    | none => (bids, asks, btr, atr)

/-- Removal pass of post_match: indices sorted descending, each in-range
index swap-removed. -/
def removeMarked (l : List Order) (toRemove : List Nat) : List Order :=
  (sortBy (fun a b : Nat => decide (b ≤ a)) toRemove).foldl
    (fun acc i => if i < acc.length then swapRemove acc i else acc) l

/-- post_match from continuous_order_book.rs: apply the recorded fills to
the resting orders, swap-remove the fully consumed ones in descending index
order, rebuild the index of the matched side, clear the scratch lists. -/
def post_match (b : ContinuousOrderBook) (match_against_asks : Bool) :
    ContinuousOrderBook :=
  if b.matched_orders.isEmpty then b
  else
    let (bids, asks, btr, atr) :=
      b.matched_orders.foldl applyMatched (b.bids, b.asks, b.bids_to_remove, b.asks_to_remove)
    let bids := removeMarked bids btr
    let asks := removeMarked asks atr
    let b := { b with bids := bids, asks := asks, bids_to_remove := [],
                      asks_to_remove := [], matched_orders := [] }
    if match_against_asks then prepare_asks_index b else prepare_bids_index b

/-- The match_against_side loop of continuous_order_book.rs.  fuel bounds
the number of iterations of the source loop (every claim proved below
either holds for all fuel or is evaluated with enough fuel for the loop to
reach its break).  Reading top_index past its length (a Rust index panic,
unreachable in the states the engine produces) is modelled as loop exit;
the missing-resting-order arm is the explicit break of the source. -/
def match_loop (now : Nat) :
    Nat → ContinuousOrderBook → Order → Bool → ContinuousOrderBook × Order
  | 0, b, o, _ => (b, o)
  | fuel + 1, b, o, match_against_asks =>
    if o.quantity = 0 then (b, o)
    else
      let top_index := if match_against_asks then b.top_asks_index else b.top_bids_index
      if top_index.isEmpty then
        let b := if match_against_asks then prepare_asks_index b else prepare_bids_index b
        let re_indexed := if match_against_asks then b.top_asks_index else b.top_bids_index
        if re_indexed.isEmpty then (b, o)
        else match_loop now fuel b o match_against_asks
      else
        let resting_orders := if match_against_asks then b.asks else b.bids
        let top_index_used :=
          if match_against_asks then b.asks_index_used else b.bids_index_used
        match top_index.get? top_index_used with
        | none => (b, o)
        | some resting_order_index =>
          match resting_orders.get? resting_order_index with
          | none => (b, o)
          | some resting_order =>
            let price_check_ok :=
              if match_against_asks then
                o.price_type = ORDER_PRICE_TYPE_MARKET ∨ resting_order.price ≤ o.price
              else
                o.price_type = ORDER_PRICE_TYPE_MARKET ∨ o.price ≤ resting_order.price
            if ¬ price_check_ok then (b, o)
            else
              let trade_quantity := min o.quantity resting_order.quantity
              let trade_price := resting_order.price
              let o2 := { o with quantity := o.quantity - trade_quantity }
              let b := { b with matched_orders := b.matched_orders ++
                [({ order_index := resting_order_index,
                    matched_quantity := trade_quantity,
                    is_buy := !match_against_asks } : MatchedRestingOrder)] }
              let ids :=
                if o.order_type = ORDER_TYPE_BUY then (o.order_id, resting_order.order_id)
                else (resting_order.order_id, o.order_id)
              let b :=
                if match_against_asks then { b with asks_index_used := b.asks_index_used + 1 }
                else { b with bids_index_used := b.bids_index_used + 1 }
              let order_execution : OrderExecution :=
                { instance_tag := List.replicate 16 0,
                  product_id := o.product_id,
                  buy_order_id := ids.1,
                  sell_order_id := ids.2,
                  price := trade_price,
                  quantity := trade_quantity,
                  trade_time_network := (now - o.submit_time) % 4294967296,
                  internal_match_time := 0,
                  is_mocked_result := o.is_mocked_order }
              let b := { b with match_result := { b.match_result with
                order_execution_list :=
                  b.match_result.order_execution_list ++ [order_execution] } }
              let needs_to_rebuild_index :=
                if match_against_asks then need_to_rebuild_asks_index b
                else need_to_rebuild_bids_index b
              let b := if needs_to_rebuild_index then post_match b match_against_asks else b
              match_loop now fuel b o2 match_against_asks

/-- Result of one match_against_side call: the mutated book, the mutated
aggressor, and the MatchResult handed to the ResultSender. -/
structure SideResult where
  book : ContinuousOrderBook
  taker : Order
  sent : MatchResult
deriving Repr

/-- match_against_side from continuous_order_book.rs: clear the previous
match result, run the loop, send the match result, run post_match and
update_stats_with_result.  The high-resolution timer readings are not
modelled (start_time and end_time are 0). -/
def match_against_side (fuel now : Nat) (b : ContinuousOrderBook) (o : Order)
    (match_against_asks : Bool) : SideResult :=
  let b := { b with match_result :=
    { order_execution_list := [], start_time := 0, end_time := 0 } }
  let (b, o) := match_loop now fuel b o match_against_asks
  let sent := b.match_result
  let b := post_match b match_against_asks
  let b := update_stats_with_result b o
  { book := b, taker := o, sent := sent }

/-- Result of one match_order call: sent is none when no side was matched
(the sender is only invoked from inside match_against_side). -/
structure MatchOutcome where
  book : ContinuousOrderBook
  taker : Order
  sent : Option MatchResult
deriving Repr

/-- match_order from continuous_order_book.rs: dispatch SELL against bids
and BUY against asks (every other order type matches nothing), then add a
LIMIT residual to the book and rebuild the index of the residual side. -/
def match_order (fuel now : Nat) (b : ContinuousOrderBook) (o : Order) :
    MatchOutcome :=
  let match_agaist_asks := o.order_type = ORDER_TYPE_BUY
  let r :=
    if o.order_type = ORDER_TYPE_SELL then
      let s := match_against_side fuel now b o false
      ({ book := s.book, taker := s.taker, sent := some s.sent } : MatchOutcome)
    else if o.order_type = ORDER_TYPE_BUY then
      let s := match_against_side fuel now b o true
      ({ book := s.book, taker := s.taker, sent := some s.sent } : MatchOutcome)
    else
      ({ book := b, taker := o, sent := none } : MatchOutcome)
  if 0 < r.taker.quantity ∧ r.taker.price_type = ORDER_PRICE_TYPE_LIMIT then
    let b2 := fuel_order r.book r.taker
    let b2 := if match_agaist_asks then prepare_bids_index b2 else prepare_asks_index b2
    { r with book := b2 }
  else r

/-- cancel_order from continuous_order_book.rs: find the order id in bids
then asks; when found clear that side's top index, swap-remove the order,
rebuild both indices and return true; otherwise return false.  The side
volume totals are not touched. -/
def cancel_order (b : ContinuousOrderBook) (order_id : Nat) :
    ContinuousOrderBook × Bool :=
  let found :=
    match b.bids.findIdx? (fun o : Order => o.order_id == order_id) with
    | some i => some (i, true)
    | none =>
      match b.asks.findIdx? (fun o : Order => o.order_id == order_id) with
      | some i => some (i, false)
      | none => none
  match found with
  | none => (b, false)
  | some (index_to_remove, is_buy) =>
    let b := if is_buy then { b with top_bids_index := [] }
             else { b with top_asks_index := [] }
    let b :=
      if is_buy then
        if index_to_remove < b.bids.length then
          { b with bids := swapRemove b.bids index_to_remove }
        else b
      else
        if index_to_remove < b.asks.length then
          { b with asks := swapRemove b.asks index_to_remove }
        else b
    (prepare_index b, true)

/-- The executions a match_order call hands to the result sender. -/
def executionsOf (m : MatchOutcome) : List OrderExecution :=
  match m.sent with
  | none => []
  | some mr => mr.order_execution_list

/-- The OrderExecution one fill iteration of the match loop emits, spelled
out for the fill-step lemma below (identical to the record built inside
match_loop). -/
def fill_exec (now : Nat) (o r : Order) : OrderExecution :=
  { instance_tag := List.replicate 16 0,
    product_id := o.product_id,
    buy_order_id :=
      (if o.order_type = ORDER_TYPE_BUY then (o.order_id, r.order_id)
       else (r.order_id, o.order_id)).1,
    sell_order_id :=
      (if o.order_type = ORDER_TYPE_BUY then (o.order_id, r.order_id)
       else (r.order_id, o.order_id)).2,
    price := r.price,
    quantity := min o.quantity r.quantity,
    trade_time_network := (now - o.submit_time) % 4294967296,
    internal_match_time := 0,
    is_mocked_result := o.is_mocked_order }

/-- The aggressor after one fill iteration of the match loop. -/
def fill_taker (o r : Order) : Order :=
  { o with quantity := o.quantity - min o.quantity r.quantity }

/-- The book state in the middle of one fill iteration of the match loop:
matched resting order recorded, index cursor advanced, execution appended,
but post_match not yet run. -/
def fill_pre (now : Nat) (b : ContinuousOrderBook) (o r : Order) (idx : Nat)
    (aga : Bool) : ContinuousOrderBook :=
  let b := { b with matched_orders := b.matched_orders ++
    [({ order_index := idx, matched_quantity := min o.quantity r.quantity,
        is_buy := !aga } : MatchedRestingOrder)] }
  let b :=
    if aga then { b with asks_index_used := b.asks_index_used + 1 }
    else { b with bids_index_used := b.bids_index_used + 1 }
  { b with match_result := { b.match_result with
    order_execution_list :=
      b.match_result.order_execution_list ++ [fill_exec now o r] } }

/-- Whether the fill iteration triggers an index rebuild. -/
def fill_needs_rebuild (now : Nat) (b : ContinuousOrderBook) (o r : Order)
    (idx : Nat) (aga : Bool) : Bool :=
  if aga then
    ContinuousOrderBook.need_to_rebuild_asks_index (fill_pre now b o r idx aga)
  else
    ContinuousOrderBook.need_to_rebuild_bids_index (fill_pre now b o r idx aga)

/-- The book after one fill iteration of the match loop, spelled out for
the fill-step lemma below. -/
def fill_book (now : Nat) (b : ContinuousOrderBook) (o r : Order) (idx : Nat)
    (aga : Bool) : ContinuousOrderBook :=
  if fill_needs_rebuild now b o r idx aga then
    ContinuousOrderBook.post_match (fill_pre now b o r idx aga) aga
  else fill_pre now b o r idx aga

end ContinuousOrderBook

/-- An execution is witnessed by a resting order of the given side: the
trade price is that maker's price, the quantities bound both remaining
quantities, and the id pair names the aggressor and that maker. -/
def ExecFromSide (side : List Order) (oid otype q0 : Nat) (e : OrderExecution) : Prop :=
  ∃ r, r ∈ side ∧ e.price = r.price ∧ e.quantity ≤ r.quantity ∧ e.quantity ≤ q0 ∧
    (if otype = ORDER_TYPE_BUY then e.buy_order_id = oid ∧ e.sell_order_id = r.order_id
     else e.sell_order_id = oid ∧ e.buy_order_id = r.order_id)

/-- Every order of the first list is a copy of an order of the second with
the same id and price and no larger quantity (the matching steps only ever
decrement quantities and remove orders). -/
def DominatedBy (s1 s0 : List Order) : Prop :=
  ∀ y ∈ s1, ∃ x, x ∈ s0 ∧ y.order_id = x.order_id ∧ y.price = x.price ∧
    y.quantity ≤ x.quantity

/-- Shorthand for concrete test orders used in the closed evaluations. -/
def testOrder (id pr q ty pt : Nat) (mock : Bool := false) : Order :=
  { product_id := 1, order_id := id, price := pr, quantity := q, order_type := ty,
    price_type := pt, submit_time := 0, expire_time := 0, is_mocked_order := mock }

/-- Auction pool of the spec scenario: bids 100 at 10 and 99 at 5, asks
98 at 8 and 101 at 4. -/
def scenarioPool : CallAuctionPool :=
  { bids := [testOrder 1 100 10 ORDER_TYPE_BUY ORDER_PRICE_TYPE_LIMIT,
             testOrder 2 99 5 ORDER_TYPE_BUY ORDER_PRICE_TYPE_LIMIT],
    asks := [testOrder 3 98 8 ORDER_TYPE_SELL ORDER_PRICE_TYPE_LIMIT,
             testOrder 4 101 4 ORDER_TYPE_SELL ORDER_PRICE_TYPE_LIMIT] }

/-- A fresh book holding exactly one resting ask: id 10, price 100, qty 5. -/
def bookWithAsk : ContinuousOrderBook :=
  (ContinuousOrderBook.new 100).fuel_order
    (testOrder 10 100 5 ORDER_TYPE_SELL ORDER_PRICE_TYPE_LIMIT)

/-- A LIMIT BUY crossing the resting ask of bookWithAsk. -/
def crossingBuy : Order := testOrder 11 100 5 ORDER_TYPE_BUY ORDER_PRICE_TYPE_LIMIT

/-- The same submission with side MOCK_BUY. -/
def crossingMockBuy : Order :=
  testOrder 11 100 5 ORDER_TYPE_MOCK_BUY ORDER_PRICE_TYPE_LIMIT true

/-- Book produced by the engine itself: a LIMIT BUY id 1, price 100, qty 5
submitted into an empty book, so that total_bid_volumn is the value the
engine maintains (5). -/
def bookWithBid : ContinuousOrderBook :=
  (ContinuousOrderBook.match_order 10 0 (ContinuousOrderBook.new 100)
    (testOrder 1 100 5 ORDER_TYPE_BUY ORDER_PRICE_TYPE_LIMIT)).book

end MatchEngine

namespace MatchEngine

theorem toBeBytes_length (w v : Nat) : (toBeBytes w v).length = w := by
  induction w generalizing v with
  | zero => rfl
  | succ w ih => simp [toBeBytes, ih]

/-- C2.  The cancel round trip is broken: serializing the cancel request
with product_id 1 and order id 2 and decoding the frame back yields
product_id 256 and order id 512 (deserialize_cancel_order starts reading
one byte late, at offset 3 instead of the offset 2 its comments claim),
and unpack_message_payload rejects the frame outright because
serialize_cancel_order_chunk never writes the message type or the
checksum byte. -/
theorem C2_cancel_roundtrip_broken :
    (serialize_cancel_order_chunk { product_id := 1, order_ids := [2] } 0).map
      (fun buf => (deserialize_cancel_order buf, unpack_message_payload buf)) =
    some (Except.ok { product_id := 256, order_ids := [512] },
      Except.error "Checksum failed") := by
  rfl

/-- C3 counterexample.  The claim says every encoded frame is exactly 50
bytes; the frame for a concrete order is 64 bytes long. -/
theorem C3_counterexample :
    (serialize_order (testOrder 1 100 5 ORDER_TYPE_BUY ORDER_PRICE_TYPE_LIMIT)).length ≠ 50 := by
  decide

/-- C3 amended.  Every frame produced by the four encoders is exactly
MESSAGE_TOTAL_SIZE = 64 bytes, and unpack_message_payload rejects any
buffer whose length is not 64 with the length error. -/
theorem C3_frame_size_64 :
    (∀ o : Order, (serialize_order o).length = 64) ∧
    (∀ (c : CancelOrder) (si : Nat) (buf : List Nat),
      serialize_cancel_order_chunk c si = some buf → buf.length = 64) ∧
    (∀ (t : Trade) (buf : List Nat),
      serialize_match_result t = some buf → buf.length = 64) ∧
    (∀ (s : BroadcastStats) (buf : List Nat),
      serialize_stats_result s = some buf → buf.length = 64) ∧
    (∀ buf : List Nat, buf.length ≠ 64 →
      unpack_message_payload buf = Except.error "Buffer size mismatch") := by
  refine ⟨?_, ?_, ?_, ?_, ?_⟩
  · intro o
    simp [serialize_order, toBeBytes_length]
  · intro c si buf h
    simp only [serialize_cancel_order_chunk] at h
    split at h
    · exact absurd h (by simp)
    · have hb := (Option.some.injEq _ _).mp h.symm
      subst hb
      have h5 : List.range 5 = [0, 1, 2, 3, 4] := rfl
      simp [h5, toBeBytes_length]
  · intro t buf h
    simp only [serialize_match_result] at h
    split at h
    · exact absurd h (by simp)
    · rename_i hlen
      have h8 : t.instance_tag.length = 8 := by omega
      have hb := (Option.some.injEq _ _).mp h.symm
      subst hb
      simp [toBeBytes_length, h8]
  · intro s buf h
    simp only [serialize_stats_result] at h
    split at h
    · exact absurd h (by simp)
    · rename_i hlen
      have h8 : s.instance_tag.length = 8 := by omega
      have hb := (Option.some.injEq _ _).mp h.symm
      subst hb
      simp [toBeBytes_length, h8]
  · intro buf h
    simp [unpack_message_payload, MESSAGE_TOTAL_SIZE, h]

/-- C3 witness: the amended theorem applied at a concrete order, a
concrete cancel chunk and a concrete short buffer. -/
theorem C3_frame_size_64_witness :
    (serialize_order (testOrder 2 7 3 ORDER_TYPE_SELL ORDER_PRICE_TYPE_LIMIT)).length = 64 ∧
    unpack_message_payload [1, 2, 3] = Except.error "Buffer size mismatch" := by
  constructor
  · exact C3_frame_size_64.1 (testOrder 2 7 3 ORDER_TYPE_SELL ORDER_PRICE_TYPE_LIMIT)
  · exact C3_frame_size_64.2.2.2.2 [1, 2, 3] (by decide)

/-- C4.  Mock submissions are not matched at all: against a book holding
one crossing resting ask, a MOCK_BUY submission emits no executions and
never invokes the result sender (match_order dispatches only the BUY and
SELL order types), while the identical real BUY submission produces one
execution.  The resting ask itself is untouched by the mock submission. -/
theorem C4_mock_produces_no_executions :
    ContinuousOrderBook.executionsOf
      (ContinuousOrderBook.match_order 10 0 bookWithAsk crossingMockBuy) = [] ∧
    (ContinuousOrderBook.match_order 10 0 bookWithAsk crossingMockBuy).sent = none ∧
    (ContinuousOrderBook.match_order 10 0 bookWithAsk crossingMockBuy).book.asks =
      bookWithAsk.asks ∧
    (ContinuousOrderBook.match_order 10 0 bookWithAsk crossingMockBuy).book.bids =
      bookWithAsk.bids ∧
    (ContinuousOrderBook.executionsOf
      (ContinuousOrderBook.match_order 10 0 bookWithAsk crossingBuy)).map
        (fun e => (e.buy_order_id, e.sell_order_id, e.price, e.quantity,
          e.is_mocked_result)) = [(11, 10, 100, 5, false)] := by
  refine ⟨by decide, by decide, by decide, by decide, by decide⟩

/-- C5.  A MARKET BUY of quantity 7 into a book with an empty ask side
produces no executions and is not added resting, but total_bid_volumn is
incremented by the discarded quantity 7 (update_stats_with_result adds the
aggressor residual to the bid total even though the MARKET residual is
then thrown away), contradicting the claim that the total is unchanged. -/
theorem C5_market_residual_inflates_bid_volume :
    ContinuousOrderBook.executionsOf
      (ContinuousOrderBook.match_order 10 0 (ContinuousOrderBook.new 100)
        (testOrder 40 0 7 ORDER_TYPE_BUY ORDER_PRICE_TYPE_MARKET)) = [] ∧
    (ContinuousOrderBook.match_order 10 0 (ContinuousOrderBook.new 100)
      (testOrder 40 0 7 ORDER_TYPE_BUY ORDER_PRICE_TYPE_MARKET)).book.bids = [] ∧
    (ContinuousOrderBook.match_order 10 0 (ContinuousOrderBook.new 100)
      (testOrder 40 0 7 ORDER_TYPE_BUY ORDER_PRICE_TYPE_MARKET)).book.total_bid_volumn = 7 := by
  refine ⟨by decide, by decide, by decide⟩

/-- C6.  Cancelling a resting order removes it and returns true, and
cancelling an unknown id returns false leaving the book unchanged, but the
side volume total is NOT decremented: after cancelling the only resting
bid (quantity 5) the book is empty while total_bid_volumn is still 5. -/
theorem C6_cancel_does_not_decrement_volume :
    bookWithBid.total_bid_volumn = 5 ∧
    (bookWithBid.cancel_order 1).2 = true ∧
    (bookWithBid.cancel_order 1).1.bids = [] ∧
    (bookWithBid.cancel_order 1).1.total_bid_volumn = 5 ∧
    bookWithBid.cancel_order 99 = (bookWithBid, false) := by
  refine ⟨by decide, by decide, by decide, by decide, by decide⟩

/-- C7.  After executing the auction on the scenario pool (equilibrium
price 100, volume 8), the non-eligible orders are gone: the bid 99 at 5
(priced below the equilibrium) and the ask 101 at 4 (priced above it) are
dropped by the drain-and-filter, leaving only the partially filled
boundary bid 100 with residual 2, whereas the claim says they remain. -/
theorem C7_non_eligible_orders_dropped :
    ((scenarioPool.execute_auction 1 (List.replicate 16 0) 1 0).1.bids.map
      (fun o => (o.order_id, o.price, o.quantity))) = [(1, 100, 2)] ∧
    (scenarioPool.execute_auction 1 (List.replicate 16 0) 1 0).1.asks = [] ∧
    ((scenarioPool.execute_auction 1 (List.replicate 16 0) 1 0).2.order_execution_list.map
      (fun e => (e.buy_order_id, e.sell_order_id, e.price, e.quantity))) =
        [(1, 3, 100, 8)] := by
  refine ⟨by decide, by decide, by decide⟩

/-- C8 counterexample.  On the scenario pool with tick 1 the equilibrium
calculation does not return price 99: among the three candidates with the
maximal executable volume 8 (98, 99 and 100) the imbalance tie-break
(2 at price 100 against 7 at 98 and 99) selects 100. -/
theorem C8_counterexample :
    scenarioPool.calculate_match_price_final 1 ≠ some (99, 8) := by
  decide

/-- C8 amended.  The equilibrium for the scenario pool is price 100 with
executable volume 8. -/
theorem C8_equilibrium_price_100 :
    scenarioPool.calculate_match_price_final 1 = some (100, 8) := by
  decide

theorem mem_insertSorted {le : α → α → Bool} {x a : α} :
    ∀ {l : List α}, a ∈ insertSorted le x l → a = x ∨ a ∈ l := by
  intro l
  induction l with
  | nil => intro h; simpa [insertSorted] using h
  | cons y ys ih =>
    intro h
    simp only [insertSorted] at h
    by_cases hle : le x y
    · rw [if_pos hle] at h
      rcases List.mem_cons.mp h with h1 | h1
      · exact Or.inl h1
      · exact Or.inr h1
    · rw [if_neg hle] at h
      rcases List.mem_cons.mp h with h1 | h1
      · exact Or.inr (List.mem_cons.mpr (Or.inl h1))
      · rcases ih h1 with h2 | h2
        · exact Or.inl h2
        · exact Or.inr (List.mem_cons.mpr (Or.inr h2))

theorem mem_sortBy {le : α → α → Bool} {a : α} :
    ∀ {l : List α}, a ∈ sortBy le l → a ∈ l := by
  intro l
  induction l with
  | nil => intro h; simp [sortBy] at h
  | cons y ys ih =>
    intro h
    simp only [sortBy, List.foldr_cons] at h
    rcases mem_insertSorted h with h2 | h2
    · simp [h2]
    · exact List.mem_cons_of_mem _ (ih h2)

theorem dedupAdj_subset : ∀ {l : List Nat} {a : Nat}, a ∈ dedupAdj l → a ∈ l
  | [], a, h => by simp [dedupAdj] at h
  | [x], a, h => by simpa [dedupAdj] using h
  | x :: y :: rest, a, h => by
    simp only [dedupAdj] at h
    by_cases hxy : x = y
    · rw [if_pos hxy] at h
      exact List.mem_cons_of_mem _ (dedupAdj_subset h)
    · rw [if_neg hxy] at h
      rcases List.mem_cons.mp h with h1 | h1
      · simp [h1]
      · exact List.mem_cons_of_mem _ (dedupAdj_subset h1)

theorem sweepStep_best (st : List Order × List Order × Nat × Nat × Nat × Nat × Nat)
    (q : Nat) :
    (sweepStep st q).2.2.2.2.1 = q ∨ (sweepStep st q).2.2.2.2.1 = st.2.2.2.2.1 := by
  obtain ⟨a, b, c, d, e, f, g⟩ := st
  simp only [sweepStep]
  split
  · simp
  · split
    · simp
    · simp

theorem sweep_best_dvd (tick : Nat) :
    ∀ (l : List Nat) (st : List Order × List Order × Nat × Nat × Nat × Nat × Nat),
      (∀ q ∈ l, tick ∣ q) → tick ∣ st.2.2.2.2.1 →
      tick ∣ (l.foldl sweepStep st).2.2.2.2.1
  | [], st, _, hst => by simpa using hst
  | q :: rest, st, hl, hst => by
    simp only [List.foldl_cons]
    refine sweep_best_dvd tick rest (sweepStep st q)
      (fun r hr => hl r (List.mem_cons_of_mem _ hr)) ?_
    rcases sweepStep_best st q with h | h
    · rw [h]; exact hl q (List.mem_cons_self _ _)
    · rw [h]; exact hst

/-- C10.  Whenever the equilibrium calculation returns some (P, V) for a
positive price_tick, the price P is a multiple of price_tick and V is
positive; and it returns none whenever the bid side is empty, the ask side
is empty, or price_tick is 0. -/
theorem C10_equilibrium_guarantees :
    (∀ (p : CallAuctionPool) (tick P V : Nat), 0 < tick →
        p.calculate_match_price_final tick = some (P, V) → P % tick = 0 ∧ 0 < V) ∧
    (∀ (p : CallAuctionPool) (tick : Nat),
        p.bids = [] ∨ p.asks = [] ∨ tick = 0 →
        p.calculate_match_price_final tick = none) := by
  constructor
  · intro p tick P V htick heq
    simp only [CallAuctionPool.calculate_match_price_final] at heq
    split at heq
    · exact absurd heq (by simp)
    · split at heq
      · rename_i hpos
        have h1 := Option.some.inj heq
        have hB := congrArg Prod.fst h1
        have hM := congrArg Prod.snd h1
        simp only at hB hM
        constructor
        · rw [← hB]
          have hmem : ∀ q ∈ dedupAdj (sortBy (fun a b => decide (a ≤ b))
              ((dedupAdj (sortBy (fun a b => decide (a ≤ b))
                (p.bids.map (fun o => o.price) ++ p.asks.map (fun o => o.price)))).flatMap
                (criticalTicksFor tick))), tick ∣ q := by
            intro q hq
            have hq2 := mem_sortBy (dedupAdj_subset hq)
            rcases List.mem_flatMap.mp hq2 with ⟨pr, _, hq3⟩
            simp only [criticalTicksFor, List.cons_append, List.nil_append] at hq3
            rcases List.mem_cons.mp hq3 with hq4 | hq4
            · exact hq4 ▸ dvd_mul_left tick (pr / tick)
            · rcases List.mem_cons.mp hq4 with hq5 | hq5
              · exact hq5 ▸ dvd_add (dvd_mul_left tick (pr / tick)) dvd_rfl
              · by_cases hbt : tick ≤ pr / tick * tick
                · rw [if_pos hbt] at hq5
                  have hq6 : q = pr / tick * tick - tick := by simpa using hq5
                  exact hq6 ▸ Nat.dvd_sub' (dvd_mul_left tick (pr / tick)) dvd_rfl
                · rw [if_neg hbt] at hq5
                  simp at hq5
          have hdvd := sweep_best_dvd tick _
            ((sortBy (fun a b : Order => decide (b.price ≤ a.price)) p.bids).reverse,
              sortBy (fun a b : Order => decide (a.price ≤ b.price)) p.asks,
              ((sortBy (fun a b : Order => decide (b.price ≤ a.price)) p.bids).map
                (fun o => o.quantity)).sum, 0, 0, 0, 4294967295)
            hmem (dvd_zero tick)
          obtain ⟨k, hk⟩ := hdvd
          rw [hk]
          exact Nat.mul_mod_right tick k
        · rw [← hM]; exact hpos
      · exact absurd heq (by simp)
  · intro p tick h
    rcases h with h | h | h <;> simp [CallAuctionPool.calculate_match_price_final, h]

/-- C10 witness: the theorem applied to the scenario pool (equilibrium
some (100, 8) at tick 1) and to a pool with an empty bid side. -/
theorem C10_equilibrium_guarantees_witness :
    (100 % 1 = 0 ∧ 0 < 8) ∧
    CallAuctionPool.calculate_match_price_final { bids := [], asks := [] } 5 = none := by
  constructor
  · exact C10_equilibrium_guarantees.1 scenarioPool 1 100 8 (by decide) (by decide)
  · exact C10_equilibrium_guarantees.2 { bids := [], asks := [] } 5 (Or.inl rfl)

theorem dominatedBy_refl (s : List Order) : DominatedBy s s := by
  intro y hy
  exact ⟨y, hy, rfl, rfl, le_refl _⟩

theorem dominatedBy_trans {s2 s1 s0 : List Order}
    (h21 : DominatedBy s2 s1) (h10 : DominatedBy s1 s0) : DominatedBy s2 s0 := by
  intro y hy
  obtain ⟨x, hx, hid, hpr, hq⟩ := h21 y hy
  obtain ⟨z, hz, hid2, hpr2, hq2⟩ := h10 x hx
  exact ⟨z, hz, hid.trans hid2, hpr.trans hpr2, hq.trans hq2⟩

theorem dominatedBy_of_subset {s1 s0 : List Order}
    (h : ∀ y ∈ s1, y ∈ s0) : DominatedBy s1 s0 := by
  intro y hy
  exact ⟨y, h y hy, rfl, rfl, le_refl _⟩

theorem mem_of_getLast? {l : List Order} {x : Order}
    (h : l.getLast? = some x) : x ∈ l := by
  cases l with
  | nil => simp at h
  | cons a as =>
    have hne : a :: as ≠ [] := by simp
    rw [List.getLast?_eq_getLast _ hne] at h
    exact (Option.some.inj h) ▸ List.getLast_mem hne

namespace ContinuousOrderBook

theorem swapRemove_subset {l : List Order} {i : Nat} {y : Order}
    (h : y ∈ swapRemove l i) : y ∈ l := by
  unfold swapRemove at h
  cases hlast : l.getLast? with
  | none => rw [hlast] at h; exact h
  | some x =>
    rw [hlast] at h
    have h1 : y ∈ l.set i x := (List.dropLast_sublist _).mem h
    rcases List.mem_or_eq_of_mem_set h1 with h2 | h2
    · exact h2
    · exact h2 ▸ mem_of_getLast? hlast

theorem removeMarked_subset {toRemove : List Nat} {l : List Order} {y : Order}
    (h : y ∈ removeMarked l toRemove) : y ∈ l := by
  unfold removeMarked at h
  generalize hs : sortBy (fun a b : Nat => decide (b ≤ a)) toRemove = idxs at h
  clear hs
  induction idxs generalizing l with
  | nil => exact h
  | cons i is ih =>
    simp only [List.foldl_cons] at h
    by_cases hi : i < l.length
    · rw [if_pos hi] at h
      exact swapRemove_subset (ih h)
    · rw [if_neg hi] at h
      exact ih h

theorem applyMatched_step_dominated {B A : List Order}
    {bids asks : List Order} {btr atr : List Nat} (m : MatchedRestingOrder)
    (hb : DominatedBy bids B) (ha : DominatedBy asks A) :
    DominatedBy (applyMatched (bids, asks, btr, atr) m).1 B ∧
    DominatedBy (applyMatched (bids, asks, btr, atr) m).2.1 A := by
  unfold applyMatched
  dsimp only
  by_cases hm : m.is_buy
  · rw [if_pos hm]
    cases hget : bids.get? m.order_index with
    | none => exact ⟨hb, ha⟩
    | some o =>
      dsimp only
      by_cases hle : o.quantity ≤ m.matched_quantity
      · rw [if_pos hle]; exact ⟨hb, ha⟩
      · rw [if_neg hle]
        refine ⟨?_, ha⟩
        intro y hy
        rcases List.mem_or_eq_of_mem_set hy with h2 | h2
        · exact hb y h2
        · obtain ⟨x, hx, hid, hpr, hq⟩ := hb o (List.get?_mem hget)
          subst h2
          exact ⟨x, hx, hid, hpr, le_trans (Nat.sub_le _ _) hq⟩
  · rw [if_neg hm]
    cases hget : asks.get? m.order_index with
    | none => exact ⟨hb, ha⟩
    | some o =>
      dsimp only
      by_cases hle : o.quantity ≤ m.matched_quantity
      · rw [if_pos hle]; exact ⟨hb, ha⟩
      · rw [if_neg hle]
        refine ⟨hb, ?_⟩
        intro y hy
        rcases List.mem_or_eq_of_mem_set hy with h2 | h2
        · exact ha y h2
        · obtain ⟨x, hx, hid, hpr, hq⟩ := ha o (List.get?_mem hget)
          subst h2
          exact ⟨x, hx, hid, hpr, le_trans (Nat.sub_le _ _) hq⟩

theorem applyMatched_fold_dominated {B A : List Order} :
    ∀ (ms : List MatchedRestingOrder) (bids asks : List Order) (btr atr : List Nat),
      DominatedBy bids B → DominatedBy asks A →
      DominatedBy (ms.foldl applyMatched (bids, asks, btr, atr)).1 B ∧
      DominatedBy (ms.foldl applyMatched (bids, asks, btr, atr)).2.1 A := by
  intro ms
  induction ms with
  | nil => intro bids asks btr atr hb ha; exact ⟨hb, ha⟩
  | cons m ms ih =>
    intro bids asks btr atr hb ha
    simp only [List.foldl_cons]
    obtain ⟨hb2, ha2⟩ := applyMatched_step_dominated m hb ha
    exact ih _ _ _ _ hb2 ha2

theorem post_match_dominated (b : ContinuousOrderBook) (aga : Bool) :
    DominatedBy (post_match b aga).bids b.bids ∧
    DominatedBy (post_match b aga).asks b.asks := by
  unfold post_match
  by_cases hmo : b.matched_orders.isEmpty
  · rw [if_pos hmo]
    exact ⟨dominatedBy_refl _, dominatedBy_refl _⟩
  · rw [if_neg hmo]
    obtain ⟨hb2, ha2⟩ := applyMatched_fold_dominated b.matched_orders b.bids b.asks
      b.bids_to_remove b.asks_to_remove (dominatedBy_refl _) (dominatedBy_refl _)
    have hbids : DominatedBy
        (removeMarked
          (b.matched_orders.foldl applyMatched
            (b.bids, b.asks, b.bids_to_remove, b.asks_to_remove)).1
          (b.matched_orders.foldl applyMatched
            (b.bids, b.asks, b.bids_to_remove, b.asks_to_remove)).2.2.1) b.bids :=
      dominatedBy_trans (dominatedBy_of_subset (fun y hy => removeMarked_subset hy)) hb2
    have hasks : DominatedBy
        (removeMarked
          (b.matched_orders.foldl applyMatched
            (b.bids, b.asks, b.bids_to_remove, b.asks_to_remove)).2.1
          (b.matched_orders.foldl applyMatched
            (b.bids, b.asks, b.bids_to_remove, b.asks_to_remove)).2.2.2) b.asks :=
      dominatedBy_trans (dominatedBy_of_subset (fun y hy => removeMarked_subset hy)) ha2
    cases aga with
    | true => exact ⟨hbids, hasks⟩
    | false => exact ⟨hbids, hasks⟩

theorem post_match_match_result (b : ContinuousOrderBook) (aga : Bool) :
    (post_match b aga).match_result = b.match_result := by
  unfold post_match
  by_cases hmo : b.matched_orders.isEmpty
  · rw [if_pos hmo]
  · rw [if_neg hmo]
    cases aga with
    | true => rfl
    | false => rfl

theorem isEmpty_false_of_get? {α : Type} {l : List α} {n : Nat} {x : α}
    (h : l.get? n = some x) : l.isEmpty = false := by
  cases l with
  | nil => simp at h
  | cons a as => rfl

theorem fill_pre_match_result (now : Nat) (b : ContinuousOrderBook)
    (o r : Order) (idx : Nat) :
    ∀ aga : Bool, (fill_pre now b o r idx aga).match_result.order_execution_list =
      b.match_result.order_execution_list ++ [fill_exec now o r] := by
  intro aga
  cases aga <;> rfl

theorem fill_pre_bids (now : Nat) (b : ContinuousOrderBook)
    (o r : Order) (idx : Nat) :
    ∀ aga : Bool, (fill_pre now b o r idx aga).bids = b.bids := by
  intro aga
  cases aga <;> rfl

theorem fill_pre_asks (now : Nat) (b : ContinuousOrderBook)
    (o r : Order) (idx : Nat) :
    ∀ aga : Bool, (fill_pre now b o r idx aga).asks = b.asks := by
  intro aga
  cases aga <;> rfl

theorem fill_book_match_result (now : Nat) (b : ContinuousOrderBook)
    (o r : Order) (idx : Nat) (aga : Bool) :
    (fill_book now b o r idx aga).match_result.order_execution_list =
      b.match_result.order_execution_list ++ [fill_exec now o r] := by
  unfold fill_book
  split
  · rw [post_match_match_result]
    exact fill_pre_match_result now b o r idx aga
  · exact fill_pre_match_result now b o r idx aga

theorem fill_book_dominated (now : Nat) (b : ContinuousOrderBook)
    (o r : Order) (idx : Nat) :
    ∀ aga : Bool,
      DominatedBy (if aga then (fill_book now b o r idx aga).asks
                   else (fill_book now b o r idx aga).bids)
        (if aga then b.asks else b.bids) := by
  intro aga
  unfold fill_book
  cases aga with
  | false =>
    simp only [Bool.false_eq_true, if_false]
    split
    · exact dominatedBy_trans
        ((post_match_dominated _ _).1)
        (by rw [fill_pre_bids]; exact dominatedBy_refl _)
    · rw [fill_pre_bids]; exact dominatedBy_refl _
  | true =>
    simp only [if_true]
    split
    · exact dominatedBy_trans
        ((post_match_dominated _ _).2)
        (by rw [fill_pre_asks]; exact dominatedBy_refl _)
    · rw [fill_pre_asks]; exact dominatedBy_refl _

/-- One fill iteration of the match loop: under the fill conditions (taker
quantity nonzero, a top-index entry at the cursor, a resting order at that
position, price check passing) the loop performs exactly the fill recorded
by fill_book / fill_taker and continues. -/
theorem match_loop_succ_fill (now fuel : Nat) (b : ContinuousOrderBook)
    (o : Order) (aga : Bool) (idx : Nat) (r : Order)
    (hq : o.quantity ≠ 0)
    (hg : (if aga then b.top_asks_index else b.top_bids_index).get?
      (if aga then b.asks_index_used else b.bids_index_used) = some idx)
    (hr : (if aga then b.asks else b.bids).get? idx = some r)
    (hpc : if aga then o.price_type = ORDER_PRICE_TYPE_MARKET ∨ r.price ≤ o.price
      else o.price_type = ORDER_PRICE_TYPE_MARKET ∨ o.price ≤ r.price) :
    match_loop now (fuel + 1) b o aga =
      match_loop now fuel (fill_book now b o r idx aga) (fill_taker o r) aga := by
  cases aga with
  | false =>
    simp only [Bool.false_eq_true, if_false] at hg hr hpc
    have hemp := isEmpty_false_of_get? hg
    simp only [match_loop, hq, hemp, hg, hr, hpc, Bool.false_eq_true, if_false,
      not_true, not_false_iff, ite_true, ite_false]
    rfl
  | true =>
    simp only [if_true] at hg hr hpc
    have hemp := isEmpty_false_of_get? hg
    simp only [match_loop, hq, hemp, hg, hr, hpc, if_true, not_true,
      not_false_iff, ite_true, ite_false]
    rfl

@[simp] theorem prepare_bids_index_bids (b : ContinuousOrderBook) :
    (prepare_bids_index b).bids = b.bids := rfl

@[simp] theorem prepare_bids_index_asks (b : ContinuousOrderBook) :
    (prepare_bids_index b).asks = b.asks := rfl

@[simp] theorem prepare_bids_index_matched_orders (b : ContinuousOrderBook) :
    (prepare_bids_index b).matched_orders = b.matched_orders := rfl

@[simp] theorem prepare_bids_index_match_result (b : ContinuousOrderBook) :
    (prepare_bids_index b).match_result = b.match_result := rfl

@[simp] theorem prepare_bids_index_total_bid (b : ContinuousOrderBook) :
    (prepare_bids_index b).total_bid_volumn = b.total_bid_volumn := rfl

@[simp] theorem prepare_bids_index_total_ask (b : ContinuousOrderBook) :
    (prepare_bids_index b).total_ask_volumn = b.total_ask_volumn := rfl

@[simp] theorem prepare_bids_index_top_asks (b : ContinuousOrderBook) :
    (prepare_bids_index b).top_asks_index = b.top_asks_index := rfl

@[simp] theorem prepare_asks_index_bids (b : ContinuousOrderBook) :
    (prepare_asks_index b).bids = b.bids := rfl

@[simp] theorem prepare_asks_index_asks (b : ContinuousOrderBook) :
    (prepare_asks_index b).asks = b.asks := rfl

@[simp] theorem prepare_asks_index_matched_orders (b : ContinuousOrderBook) :
    (prepare_asks_index b).matched_orders = b.matched_orders := rfl

@[simp] theorem prepare_asks_index_match_result (b : ContinuousOrderBook) :
    (prepare_asks_index b).match_result = b.match_result := rfl

@[simp] theorem prepare_asks_index_total_bid (b : ContinuousOrderBook) :
    (prepare_asks_index b).total_bid_volumn = b.total_bid_volumn := rfl

@[simp] theorem prepare_asks_index_total_ask (b : ContinuousOrderBook) :
    (prepare_asks_index b).total_ask_volumn = b.total_ask_volumn := rfl

@[simp] theorem prepare_asks_index_top_bids (b : ContinuousOrderBook) :
    (prepare_asks_index b).top_bids_index = b.top_bids_index := rfl

theorem post_match_of_empty (b : ContinuousOrderBook) (aga : Bool)
    (h : b.matched_orders = []) : post_match b aga = b := by
  simp [post_match, h]

/-- With an empty ask side and an empty ask top index, the match loop makes
no fill: the book keeps its bids, matched orders, match result and volume
totals, and the aggressor is returned unchanged. -/
theorem match_loop_asks_empty (now fuel : Nat) (b : ContinuousOrderBook) (o : Order)
    (hasks : b.asks = []) (htop : b.top_asks_index = []) :
    (match_loop now fuel b o true).1.bids = b.bids ∧
    (match_loop now fuel b o true).1.matched_orders = b.matched_orders ∧
    (match_loop now fuel b o true).1.match_result = b.match_result ∧
    (match_loop now fuel b o true).1.total_bid_volumn = b.total_bid_volumn ∧
    (match_loop now fuel b o true).1.total_ask_volumn = b.total_ask_volumn ∧
    (match_loop now fuel b o true).2 = o := by
  cases fuel with
  | zero => simp [match_loop]
  | succ fuel =>
    by_cases hq : o.quantity = 0
    · simp [match_loop, hq]
    · simp [match_loop, hq, htop, prepare_asks_index, hasks, sortBy]

/-- Every execution the match loop appends to the match result is priced
at a resting order of the matched side of the entry book, carries that
maker's id in the slot opposite the aggressor's, and its quantity is
bounded by both that maker's quantity and the aggressor's quantity. -/
theorem match_loop_invariant (now : Nat) :
    ∀ (fuel : Nat) (b : ContinuousOrderBook) (o : Order) (aga : Bool)
      (s0 : List Order) (oid otype q0 : Nat),
      DominatedBy (if aga then b.asks else b.bids) s0 →
      o.order_id = oid → o.order_type = otype → o.quantity ≤ q0 →
      ∃ tail, (match_loop now fuel b o aga).1.match_result.order_execution_list =
        b.match_result.order_execution_list ++ tail ∧
        ∀ e ∈ tail, ExecFromSide s0 oid otype q0 e := by
  intro fuel
  induction fuel with
  | zero =>
    intro b o aga s0 oid otype q0 _ _ _ _
    exact ⟨[], by simp [match_loop], by simp⟩
  | succ fuel ih =>
    intro b o aga s0 oid otype q0 hdom hid hty hq0
    by_cases hq : o.quantity = 0
    · exact ⟨[], by simp [match_loop, hq], by simp⟩
    · cases aga with
      | false =>
        simp only [Bool.false_eq_true, if_false] at hdom
        by_cases hemp : b.top_bids_index.isEmpty
        · by_cases hre : (prepare_bids_index b).top_bids_index.isEmpty
          · refine ⟨[], ?_, by simp⟩
            simp [match_loop, hq, hemp, hre]
          · obtain ⟨tail, ht, hok⟩ := ih (prepare_bids_index b) o false s0 oid otype q0
              (by simpa using hdom) hid hty hq0
            refine ⟨tail, ?_, hok⟩
            have hstep : match_loop now (fuel + 1) b o false =
                match_loop now fuel (prepare_bids_index b) o false := by
              simp [match_loop, hq, hemp, hre]
            rw [hstep, ht]
            simp
        · cases hg : b.top_bids_index.get? b.bids_index_used with
          | none =>
            have hg2 := hg
            rw [List.get?_eq_getElem?] at hg2
            refine ⟨[], ?_, by simp⟩
            simp [match_loop, hq, hemp, hg2]
          | some idx =>
            cases hr : b.bids.get? idx with
            | none =>
              have hg2 := hg
              rw [List.get?_eq_getElem?] at hg2
              have hr2 := hr
              rw [List.get?_eq_getElem?] at hr2
              refine ⟨[], ?_, by simp⟩
              simp [match_loop, hq, hemp, hg2, hr2]
            | some r =>
              by_cases hpc : o.price_type = ORDER_PRICE_TYPE_MARKET ∨ o.price ≤ r.price
              · rw [match_loop_succ_fill now fuel b o false idx r hq (by simpa using hg)
                  (by simpa using hr) (by simpa using hpc)]
                obtain ⟨tail, ht, hok⟩ := ih (fill_book now b o r idx false) (fill_taker o r)
                  false s0 oid otype q0
                  (by
                    have hfb := fill_book_dominated now b o r idx false
                    simp only [Bool.false_eq_true, if_false] at hfb ⊢
                    exact dominatedBy_trans hfb hdom)
                  (by simp [fill_taker, hid])
                  (by simp [fill_taker, hty])
                  (by simp only [fill_taker]; exact le_trans (Nat.sub_le _ _) hq0)
                refine ⟨fill_exec now o r :: tail, ?_, ?_⟩
                · rw [ht, fill_book_match_result]
                  simp
                · intro e he
                  rcases List.mem_cons.mp he with he1 | he1
                  · subst he1
                    obtain ⟨x, hx, hxid, hxpr, hxq⟩ := hdom r (List.get?_mem hr)
                    refine ⟨x, hx, ?_, ?_, ?_, ?_⟩
                    · simp [fill_exec, hxpr]
                    · simp only [fill_exec]
                      exact le_trans (min_le_right _ _) hxq
                    · simp only [fill_exec]
                      exact le_trans (min_le_left _ _) hq0
                    · by_cases hbuy : otype = ORDER_TYPE_BUY
                      · have hob : o.order_type = ORDER_TYPE_BUY := hty.trans hbuy
                        simp [fill_exec, hbuy, hob, hid, hxid]
                      · have hob : ¬ o.order_type = ORDER_TYPE_BUY := by
                          rw [hty]; exact hbuy
                        simp [fill_exec, hbuy, hob, hid, hxid]
                  · exact hok e he1
              · have hg2 := hg
                rw [List.get?_eq_getElem?] at hg2
                have hr2 := hr
                rw [List.get?_eq_getElem?] at hr2
                push_neg at hpc
                refine ⟨[], ?_, by simp⟩
                simp [match_loop, hq, hemp, hg2, hr2, hpc.1, hpc.2]
      | true =>
        simp only [if_true] at hdom
        by_cases hemp : b.top_asks_index.isEmpty
        · by_cases hre : (prepare_asks_index b).top_asks_index.isEmpty
          · refine ⟨[], ?_, by simp⟩
            simp [match_loop, hq, hemp, hre]
          · obtain ⟨tail, ht, hok⟩ := ih (prepare_asks_index b) o true s0 oid otype q0
              (by simpa using hdom) hid hty hq0
            refine ⟨tail, ?_, hok⟩
            have hstep : match_loop now (fuel + 1) b o true =
                match_loop now fuel (prepare_asks_index b) o true := by
              simp [match_loop, hq, hemp, hre]
            rw [hstep, ht]
            simp
        · cases hg : b.top_asks_index.get? b.asks_index_used with
          | none =>
            have hg2 := hg
            rw [List.get?_eq_getElem?] at hg2
            refine ⟨[], ?_, by simp⟩
            simp [match_loop, hq, hemp, hg2]
          | some idx =>
            cases hr : b.asks.get? idx with
            | none =>
              have hg2 := hg
              rw [List.get?_eq_getElem?] at hg2
              have hr2 := hr
              rw [List.get?_eq_getElem?] at hr2
              refine ⟨[], ?_, by simp⟩
              simp [match_loop, hq, hemp, hg2, hr2]
            | some r =>
              by_cases hpc : o.price_type = ORDER_PRICE_TYPE_MARKET ∨ r.price ≤ o.price
              · rw [match_loop_succ_fill now fuel b o true idx r hq (by simpa using hg)
                  (by simpa using hr) (by simpa using hpc)]
                obtain ⟨tail, ht, hok⟩ := ih (fill_book now b o r idx true) (fill_taker o r)
                  true s0 oid otype q0
                  (by
                    have hfb := fill_book_dominated now b o r idx true
                    simp only [if_true] at hfb ⊢
                    exact dominatedBy_trans hfb hdom)
                  (by simp [fill_taker, hid])
                  (by simp [fill_taker, hty])
                  (by simp only [fill_taker]; exact le_trans (Nat.sub_le _ _) hq0)
                refine ⟨fill_exec now o r :: tail, ?_, ?_⟩
                · rw [ht, fill_book_match_result]
                  simp
                · intro e he
                  rcases List.mem_cons.mp he with he1 | he1
                  · subst he1
                    obtain ⟨x, hx, hxid, hxpr, hxq⟩ := hdom r (List.get?_mem hr)
                    refine ⟨x, hx, ?_, ?_, ?_, ?_⟩
                    · simp [fill_exec, hxpr]
                    · simp only [fill_exec]
                      exact le_trans (min_le_right _ _) hxq
                    · simp only [fill_exec]
                      exact le_trans (min_le_left _ _) hq0
                    · by_cases hbuy : otype = ORDER_TYPE_BUY
                      · have hob : o.order_type = ORDER_TYPE_BUY := hty.trans hbuy
                        simp [fill_exec, hbuy, hob, hid, hxid]
                      · have hob : ¬ o.order_type = ORDER_TYPE_BUY := by
                          rw [hty]; exact hbuy
                        simp [fill_exec, hbuy, hob, hid, hxid]
                  · exact hok e he1
              · have hg2 := hg
                rw [List.get?_eq_getElem?] at hg2
                have hr2 := hr
                rw [List.get?_eq_getElem?] at hr2
                push_neg at hpc
                refine ⟨[], ?_, by simp⟩
                simp [match_loop, hq, hemp, hg2, hr2, hpc.1, hpc.2]

end ContinuousOrderBook

/-- C1.  First part: every execution a match_order call emits is witnessed
by a resting order of the matched side of the pre-match book: the trade
price is that maker's price, the maker's id sits in the slot opposite the
aggressor's id, and the quantity is bounded by the maker's resting
quantity and by the taker's quantity.  Second part: at the moment of a
fill, the execution the loop appends is priced exactly at the resting
order's price and sized exactly min(taker remaining, maker remaining). -/
theorem C1_maker_price_and_min_quantity :
    (∀ (fuel now : Nat) (b : ContinuousOrderBook) (o : Order) (e : OrderExecution),
        e ∈ ContinuousOrderBook.executionsOf (ContinuousOrderBook.match_order fuel now b o) →
        ExecFromSide (if o.order_type = ORDER_TYPE_BUY then b.asks else b.bids)
          o.order_id o.order_type o.quantity e) ∧
    (∀ (fuel now : Nat) (b : ContinuousOrderBook) (o : Order) (aga : Bool)
        (idx : Nat) (r : Order),
        o.quantity ≠ 0 →
        (if aga then b.top_asks_index else b.top_bids_index).get?
          (if aga then b.asks_index_used else b.bids_index_used) = some idx →
        (if aga then b.asks else b.bids).get? idx = some r →
        (if aga then o.price_type = ORDER_PRICE_TYPE_MARKET ∨ r.price ≤ o.price
         else o.price_type = ORDER_PRICE_TYPE_MARKET ∨ o.price ≤ r.price) →
        ∃ rest,
          (ContinuousOrderBook.match_loop now (fuel + 1) b o aga).1.match_result.order_execution_list =
            b.match_result.order_execution_list ++
              (({ instance_tag := List.replicate 16 0,
                  product_id := o.product_id,
                  buy_order_id := (if o.order_type = ORDER_TYPE_BUY
                    then (o.order_id, r.order_id) else (r.order_id, o.order_id)).1,
                  sell_order_id := (if o.order_type = ORDER_TYPE_BUY
                    then (o.order_id, r.order_id) else (r.order_id, o.order_id)).2,
                  price := r.price,
                  quantity := min o.quantity r.quantity,
                  trade_time_network := (now - o.submit_time) % 4294967296,
                  internal_match_time := 0,
                  is_mocked_result := o.is_mocked_order } : OrderExecution) :: rest)) := by
  constructor
  · intro fuel now b o e he
    by_cases hsell : o.order_type = ORDER_TYPE_SELL
    · have hnb : ¬ o.order_type = ORDER_TYPE_BUY := by
        rw [hsell]; simp [ORDER_TYPE_SELL, ORDER_TYPE_BUY]
      have hex : ContinuousOrderBook.executionsOf
          (ContinuousOrderBook.match_order fuel now b o) =
          (ContinuousOrderBook.match_against_side fuel now b o false).sent.order_execution_list := by
        unfold ContinuousOrderBook.match_order
        rw [if_pos hsell]
        dsimp only
        split <;> rfl
      rw [hex] at he
      have hsent : (ContinuousOrderBook.match_against_side fuel now b o false).sent =
          (ContinuousOrderBook.match_loop now fuel
            { b with match_result :=
              { order_execution_list := [], start_time := 0, end_time := 0 } }
            o false).1.match_result := rfl
      rw [hsent] at he
      obtain ⟨tail, ht, hok⟩ := ContinuousOrderBook.match_loop_invariant now fuel
        { b with match_result :=
          { order_execution_list := [], start_time := 0, end_time := 0 } }
        o false b.bids o.order_id o.order_type o.quantity
        (by simp only [Bool.false_eq_true, if_false]; exact dominatedBy_refl _)
        rfl rfl (le_refl _)
      rw [ht] at he
      simp only [if_neg hnb]
      exact hok e (by simpa using he)
    · by_cases hbuy : o.order_type = ORDER_TYPE_BUY
      · have hex : ContinuousOrderBook.executionsOf
            (ContinuousOrderBook.match_order fuel now b o) =
            (ContinuousOrderBook.match_against_side fuel now b o true).sent.order_execution_list := by
          unfold ContinuousOrderBook.match_order
          rw [if_neg hsell, if_pos hbuy]
          dsimp only
          split <;> rfl
        rw [hex] at he
        have hsent : (ContinuousOrderBook.match_against_side fuel now b o true).sent =
            (ContinuousOrderBook.match_loop now fuel
              { b with match_result :=
                { order_execution_list := [], start_time := 0, end_time := 0 } }
              o true).1.match_result := rfl
        rw [hsent] at he
        obtain ⟨tail, ht, hok⟩ := ContinuousOrderBook.match_loop_invariant now fuel
          { b with match_result :=
            { order_execution_list := [], start_time := 0, end_time := 0 } }
          o true b.asks o.order_id o.order_type o.quantity
          (by simp only [if_true]; exact dominatedBy_refl _)
          rfl rfl (le_refl _)
        rw [ht] at he
        simp only [if_pos hbuy]
        exact hok e (by simpa using he)
      · have hex : ContinuousOrderBook.executionsOf
            (ContinuousOrderBook.match_order fuel now b o) = [] := by
          unfold ContinuousOrderBook.match_order
          rw [if_neg hsell, if_neg hbuy]
          dsimp only
          split <;> rfl
        rw [hex] at he
        simp at he
  · intro fuel now b o aga idx r hq hg hr hpc
    rw [ContinuousOrderBook.match_loop_succ_fill now fuel b o aga idx r hq hg hr hpc]
    obtain ⟨tail, ht, _⟩ := ContinuousOrderBook.match_loop_invariant now fuel
      (ContinuousOrderBook.fill_book now b o r idx aga) (ContinuousOrderBook.fill_taker o r) aga
      (if aga then (ContinuousOrderBook.fill_book now b o r idx aga).asks
       else (ContinuousOrderBook.fill_book now b o r idx aga).bids)
      (ContinuousOrderBook.fill_taker o r).order_id
      (ContinuousOrderBook.fill_taker o r).order_type
      (ContinuousOrderBook.fill_taker o r).quantity
      (dominatedBy_refl _) rfl rfl (le_refl _)
    refine ⟨tail, ?_⟩
    rw [ht, ContinuousOrderBook.fill_book_match_result]
    simp [ContinuousOrderBook.fill_exec]

/-- C1 witness: the first part applied to the book with one resting ask
and the crossing LIMIT BUY, at the concrete execution that submission
emits; and the second part applied at the same book with its ask index
prepared. -/
theorem C1_maker_price_and_min_quantity_witness :
    ExecFromSide
      (if crossingBuy.order_type = ORDER_TYPE_BUY then bookWithAsk.asks else bookWithAsk.bids)
      crossingBuy.order_id crossingBuy.order_type crossingBuy.quantity
      { instance_tag := List.replicate 16 0, product_id := 1, buy_order_id := 11,
        sell_order_id := 10, price := 100, quantity := 5, trade_time_network := 0,
        internal_match_time := 0, is_mocked_result := false } ∧
    ∃ rest,
      (ContinuousOrderBook.match_loop 0 3
        (ContinuousOrderBook.prepare_asks_index bookWithAsk)
        crossingBuy true).1.match_result.order_execution_list =
      (ContinuousOrderBook.prepare_asks_index bookWithAsk).match_result.order_execution_list ++
        (({ instance_tag := List.replicate 16 0,
            product_id := crossingBuy.product_id,
            buy_order_id := (if crossingBuy.order_type = ORDER_TYPE_BUY
              then (crossingBuy.order_id, (testOrder 10 100 5 ORDER_TYPE_SELL ORDER_PRICE_TYPE_LIMIT).order_id)
              else ((testOrder 10 100 5 ORDER_TYPE_SELL ORDER_PRICE_TYPE_LIMIT).order_id, crossingBuy.order_id)).1,
            sell_order_id := (if crossingBuy.order_type = ORDER_TYPE_BUY
              then (crossingBuy.order_id, (testOrder 10 100 5 ORDER_TYPE_SELL ORDER_PRICE_TYPE_LIMIT).order_id)
              else ((testOrder 10 100 5 ORDER_TYPE_SELL ORDER_PRICE_TYPE_LIMIT).order_id, crossingBuy.order_id)).2,
            price := (testOrder 10 100 5 ORDER_TYPE_SELL ORDER_PRICE_TYPE_LIMIT).price,
            quantity := min crossingBuy.quantity
              (testOrder 10 100 5 ORDER_TYPE_SELL ORDER_PRICE_TYPE_LIMIT).quantity,
            trade_time_network := (0 - crossingBuy.submit_time) % 4294967296,
            internal_match_time := 0,
            is_mocked_result := crossingBuy.is_mocked_order } : OrderExecution) :: rest) := by
  constructor
  · exact C1_maker_price_and_min_quantity.1 10 0 bookWithAsk crossingBuy _ (by decide)
  · exact C1_maker_price_and_min_quantity.2 2 0
      (ContinuousOrderBook.prepare_asks_index bookWithAsk) crossingBuy true 0
      (testOrder 10 100 5 ORDER_TYPE_SELL ORDER_PRICE_TYPE_LIMIT)
      (by decide) (by decide) (by decide) (by decide)

/-- C9 amended.  A LIMIT BUY submission facing an empty ask side is
appended to the bids wholesale, with no duplicate-order_id inspection:
whatever already rests in bids (including an order with the same id)
stays there unchanged and the incoming order is added behind it. -/
theorem C9_duplicate_submission_appended
    (fuel now : Nat) (b : ContinuousOrderBook) (o : Order)
    (hty : o.order_type = ORDER_TYPE_BUY) (hpt : o.price_type = ORDER_PRICE_TYPE_LIMIT)
    (hq : 0 < o.quantity) (hasks : b.asks = []) (htop : b.top_asks_index = [])
    (hmo : b.matched_orders = []) :
    (ContinuousOrderBook.match_order fuel now b o).book.bids = b.bids ++ [o] := by
  have hne : o.order_type ≠ ORDER_TYPE_SELL := by
    rw [hty]; simp [ORDER_TYPE_BUY, ORDER_TYPE_SELL]
  simp only [ContinuousOrderBook.match_order, hne, hty, if_false, if_true,
    ORDER_TYPE_BUY, if_pos, reduceIte]
  set b1 : ContinuousOrderBook := { b with match_result :=
    { order_execution_list := [], start_time := 0, end_time := 0 } } with hb1
  have h1 := ContinuousOrderBook.match_loop_asks_empty now fuel b1 o
    (by simp [hb1, hasks]) (by simp [hb1, htop])
  simp only [ContinuousOrderBook.match_against_side, ← hb1]
  obtain ⟨e1, e2, e3, e4, e5, e6⟩ := h1
  have hmo1 : (ContinuousOrderBook.match_loop now fuel b1 o true).1.matched_orders = [] := by
    rw [e2]; simp [hb1, hmo]
  rw [ContinuousOrderBook.post_match_of_empty _ _ hmo1]
  have hq1 : 0 < (ContinuousOrderBook.match_loop now fuel b1 o true).2.quantity := by
    rw [e6]; exact hq
  have hpt1 : (ContinuousOrderBook.match_loop now fuel b1 o true).2.price_type =
      ORDER_PRICE_TYPE_LIMIT := by rw [e6]; exact hpt
  have hty1 : (ContinuousOrderBook.match_loop now fuel b1 o true).2.order_type =
      ORDER_TYPE_BUY := by rw [e6]; exact hty
  simp only [ContinuousOrderBook.update_stats_with_result,
    ContinuousOrderBook.fuel_order, e6, hty, hpt, hq1]
  simp [ContinuousOrderBook.fuel_order, hty, hpt, hq, e1, e3, hb1,
    ORDER_TYPE_BUY, ORDER_TYPE_SELL, ORDER_PRICE_TYPE_LIMIT]

/-- C9 amended witness: the amended theorem applied to the book already
holding order id 1 and a second submission with the same id. -/
theorem C9_duplicate_submission_appended_witness :
    (ContinuousOrderBook.match_order 10 0
      ((ContinuousOrderBook.new 100).fuel_order
        (testOrder 1 100 5 ORDER_TYPE_BUY ORDER_PRICE_TYPE_LIMIT))
      (testOrder 1 100 5 ORDER_TYPE_BUY ORDER_PRICE_TYPE_LIMIT)).book.bids =
    ((ContinuousOrderBook.new 100).fuel_order
      (testOrder 1 100 5 ORDER_TYPE_BUY ORDER_PRICE_TYPE_LIMIT)).bids ++
      [testOrder 1 100 5 ORDER_TYPE_BUY ORDER_PRICE_TYPE_LIMIT] :=
  C9_duplicate_submission_appended 10 0 _ _ (by decide) (by decide) (by decide)
    (by decide) (by decide) (by decide)

/-- C9 counterexample.  Submitting a LIMIT BUY whose order id 1 already
rests in the book is not rejected: afterwards the book holds two resting
orders with order_id 1. -/
theorem C9_counterexample :
    ((ContinuousOrderBook.match_order 10 0
        ((ContinuousOrderBook.new 100).fuel_order
          (testOrder 1 100 5 ORDER_TYPE_BUY ORDER_PRICE_TYPE_LIMIT))
        (testOrder 1 100 5 ORDER_TYPE_BUY ORDER_PRICE_TYPE_LIMIT)).book.bids.filter
      (fun o => o.order_id == 1)).length = 2 := by
  decide

end MatchEngine
